import Mathlib

/-!
Verification development for the POS system repository.

Client-side cart pricing is embedded from src/pages/POS.tsx; the server-side
invoice issuance transaction from src/server/src/routes/invoices.js; product
catalog and stock adjustment routes from src/server/src/routes/products.js.
JavaScript numbers are modelled as rationals, machine integers as Int, and the
MySQL tables as in-memory lists of rows; a transaction is a function from the
datastore state to a response plus the committed (or rolled-back) state.
-/

namespace PosSystem

/-! ## Client-side data model (src/types.ts) -/

/-- Category record as used by the POS page (src/types.ts). -/
structure Category where
  id : String
  storeId : String
  name : String
  defaultGST : ℚ
  defaultDiscount : Option ℚ
  lowStockThreshold : Option Int
deriving DecidableEq

/-- Store record, only the fields the cart logic reads (src/types.ts). -/
structure Store where
  id : String
  name : String
  globalDiscount : Option ℚ
deriving DecidableEq

/-- Product record as seen by the client (src/types.ts). -/
structure Product where
  id : String
  storeId : String
  categoryId : String
  name : String
  price : ℚ
  stockQty : Int
  taxOverride : Option ℚ
deriving DecidableEq

/-- CartItem extends Product with quantity, applied percentages and the derived
line total (src/types.ts). -/
structure CartItem extends Product where
  quantity : Int
  appliedTaxPercent : ℚ
  appliedDiscountPercent : ℚ
  lineTotal : ℚ
deriving DecidableEq

/-! ## Cart pricing operations (src/pages/POS.tsx) -/

/-- The per-unit price block repeated inside addToCart, updateQuantity and
updateDiscount in src/pages/POS.tsx: discount is applied to the unit price,
tax to the discounted unit price, giving the final price of one unit. -/
def unitFinal (basePrice discountPercent taxPercent : ℚ) : ℚ :=
  let discountAmt := basePrice * (discountPercent / 100)
  let taxableAmt := basePrice - discountAmt
  let taxAmt := taxableAmt * (taxPercent / 100)
  taxableAmt + taxAmt

/-- JavaScript `x || y` on numbers: 0 (and absence, collapsed to 0 upstream)
falls through to the right operand. -/
def qOr (x y : ℚ) : ℚ := if x = 0 then y else x

/-- addToCart from src/pages/POS.tsx (lines 56-113): rejects an out-of-stock
product, increments quantity of an existing line (recomputing the line total
from the existing line state), or appends a new line with resolved default
tax and discount percentages. -/
def addToCart (categories : List Category) (store : Store) (product : Product)
    (cart : List CartItem) : List CartItem :=
  if product.stockQty ≤ 0 then cart
  else
    match cart.find? (fun item => item.id == product.id) with
    | some existing =>
      if existing.quantity + 1 > product.stockQty then cart
      else
        let newQty := existing.quantity + 1
        cart.map fun item =>
          if item.id == product.id then
            { item with
                quantity := newQty,
                lineTotal := unitFinal existing.price existing.appliedDiscountPercent
                  existing.appliedTaxPercent * (newQty : ℚ) }
          else item
    | none =>
      let category := categories.find? (fun c => c.id == product.categoryId)
      let appliedTaxPercent :=
        match product.taxOverride with
        | some t => t
        | none => (category.map Category.defaultGST).getD 0
      let defaultDiscount :=
        qOr (store.globalDiscount.getD 0)
          ((category.bind Category.defaultDiscount).getD 0)
      cart ++ [{ toProduct := product, quantity := 1,
                 appliedTaxPercent := appliedTaxPercent,
                 appliedDiscountPercent := defaultDiscount,
                 lineTotal := unitFinal product.price defaultDiscount appliedTaxPercent }]

/-- updateQuantity from src/pages/POS.tsx (lines 119-143): the new quantity is
floored at 1; an increase past the latest known stock is refused; otherwise the
line total is recomputed from the line's stored price and percentages. -/
def updateQuantity (products : List Product) (cart : List CartItem)
    (id : String) (delta : Int) : List CartItem :=
  cart.map fun item =>
    if item.id == id then
      let currentStock :=
        match products.find? (fun p => p.id == id) with
        | some p => p.stockQty
        | none => item.stockQty
      let newQty := max 1 (item.quantity + delta)
      if 0 < delta ∧ currentStock < newQty then item
      else
        { item with
            quantity := newQty,
            lineTotal := unitFinal item.price item.appliedDiscountPercent
              item.appliedTaxPercent * (newQty : ℚ) }
    else item

/-- updateDiscount from src/pages/POS.tsx (lines 145-160): the new discount
percent is clamped to [0, 100], stored on the line, and the line total is
recomputed with it. -/
def updateDiscount (cart : List CartItem) (id : String)
    (newDiscountPercent : ℚ) : List CartItem :=
  cart.map fun item =>
    if item.id == id then
      let validDisc := min 100 (max 0 newDiscountPercent)
      { item with
          appliedDiscountPercent := validDisc,
          lineTotal := unitFinal item.price validDisc item.appliedTaxPercent
            * (item.quantity : ℚ) }
    else item

/-- Pre-discount pre-tax amount of one cart line, as computed in the totals
useMemo of src/pages/POS.tsx (lines 163-179). -/
def lineBase (item : CartItem) : ℚ := item.price * (item.quantity : ℚ)

/-- Per-line discount amount from the totals useMemo. -/
def lineDiscount (item : CartItem) : ℚ :=
  lineBase item * (item.appliedDiscountPercent / 100)

/-- Per-line tax amount from the totals useMemo. -/
def lineTax (item : CartItem) : ℚ :=
  (lineBase item - lineDiscount item) * (item.appliedTaxPercent / 100)

/-- One iteration of the cart.forEach accumulator in the totals useMemo. -/
def totalsStep (acc : ℚ × ℚ × ℚ) (item : CartItem) : ℚ × ℚ × ℚ :=
  let baseTotal := item.price * (item.quantity : ℚ)
  let itemDisc := baseTotal * (item.appliedDiscountPercent / 100)
  let taxable := baseTotal - itemDisc
  let itemTax := taxable * (item.appliedTaxPercent / 100)
  (acc.1 + baseTotal, acc.2.1 + itemDisc, acc.2.2 + itemTax)

/-- The four aggregates of the cart. -/
structure CartTotals where
  subtotal : ℚ
  discountTotal : ℚ
  taxTotal : ℚ
  grandTotal : ℚ
deriving DecidableEq

/-- Aggregate totals computation from src/pages/POS.tsx (lines 163-179): three
running sums over the cart, and the grand total formed from those sums. -/
def cartTotals (cart : List CartItem) : CartTotals :=
  let acc := cart.foldl totalsStep (0, 0, 0)
  { subtotal := acc.1, discountTotal := acc.2.1, taxTotal := acc.2.2,
    grandTotal := acc.1 - acc.2.1 + acc.2.2 }

/-- The specification's line-total formula from P1:
(unitPrice * quantity * (1 - discount/100)) * (1 + tax/100). -/
def specLineTotal (unitPrice qty discount tax : ℚ) : ℚ :=
  unitPrice * qty * (1 - discount / 100) * (1 + tax / 100)

/-- A cart line whose stored lineTotal is within 0.01 currency units of the
specification formula applied to its own stored fields. -/
def pricedLine (item : CartItem) : Prop :=
  |item.lineTotal -
    specLineTotal item.price (item.quantity : ℚ)
      item.appliedDiscountPercent item.appliedTaxPercent| ≤ 1 / 100

instance (item : CartItem) : Decidable (pricedLine item) := by
  unfold pricedLine; infer_instance

/-- The per-unit computation multiplied by the quantity agrees exactly with the
specification's subtotal-first formula: the two orders of operations are
algebraically identical over the rationals. -/
lemma unitFinal_mul (p d t q : ℚ) :
    unitFinal p d t * q = specLineTotal p q d t := by
  simp only [unitFinal, specLineTotal]
  ring

lemma pricedLine_of_unitFinal (item : CartItem)
    (h : item.lineTotal = unitFinal item.price item.appliedDiscountPercent
      item.appliedTaxPercent * (item.quantity : ℚ)) : pricedLine item := by
  unfold pricedLine
  rw [h, unitFinal_mul, sub_self, abs_zero]
  norm_num

/-- In a list whose keys are pairwise distinct, two members with the same key
are the same element. -/
lemma eq_of_mem_of_key_nodup {α β : Type} (f : α → β) {l : List α}
    (h : (l.map f).Nodup) {a b : α} (ha : a ∈ l) (hb : b ∈ l)
    (hf : f a = f b) : a = b := by
  induction l with
  | nil => cases ha
  | cons c t ih =>
    simp only [List.map_cons, List.nodup_cons] at h
    rcases List.mem_cons.mp ha with rfl | ha2
    · rcases List.mem_cons.mp hb with rfl | hb2
      · rfl
      · exact absurd (hf ▸ List.mem_map_of_mem f hb2) h.1
    · rcases List.mem_cons.mp hb with rfl | hb2
      · exact absurd (hf ▸ List.mem_map_of_mem f ha2) h.1
      · exact ih h.2 ha2 hb2

/-! ## Server-side data model (src/server/src/config/db-schema.sql) -/

/-- A row of the products table. `id` is the primary key. -/
structure ProductRow where
  id : String
  storeId : String
  categoryId : String
  name : String
  price : ℚ
  stockQty : Int
  taxOverride : Option ℚ
  sku : Option String
  imageUrl : Option String
  costPrice : ℚ
deriving DecidableEq

/-- A row of the invoices table. `id` is the primary key and `invoiceNumber`
carries a UNIQUE constraint. -/
structure InvoiceRow where
  id : String
  invoiceNumber : String
  storeId : String
  date : String
  subtotal : ℚ
  taxTotal : ℚ
  discountTotal : ℚ
  grandTotal : ℚ
  paymentMethod : String
  synced : Bool
deriving DecidableEq

/-- A row of the invoice_items table. -/
structure InvoiceItemRow where
  invoiceId : String
  productId : String
  productName : String
  quantity : Int
  unitPrice : ℚ
  appliedTaxPercent : ℚ
  appliedDiscountPercent : ℚ
  lineTotal : ℚ
deriving DecidableEq

/-- The datastore: the three tables the issuance transaction touches. -/
structure DB where
  products : List ProductRow
  invoices : List InvoiceRow
  invoiceItems : List InvoiceItemRow
deriving DecidableEq

/-- One line item of a POST /api/invoices request body. appliedTaxPercent and
appliedDiscountPercent may be absent (the route substitutes 0 via `|| 0`). -/
structure ReqItem where
  productId : String
  name : String
  quantity : Int
  price : ℚ
  appliedTaxPercent : Option ℚ
  appliedDiscountPercent : Option ℚ
  lineTotal : ℚ
deriving DecidableEq

/-- The POST /api/invoices request body; optional fields are those the route
defaults with `||` when absent. -/
structure InvoiceReq where
  storeId : Option String
  date : Option String
  items : List ReqItem
  subtotal : Option ℚ
  taxTotal : Option ℚ
  discountTotal : Option ℚ
  grandTotal : Option ℚ
  paymentMethod : Option String
deriving DecidableEq

/-- The errors thrown inside the issuance transaction: the two business-rule
errors thrown explicitly by the route, and the storage-level duplicate-key
error raised by the UNIQUE and PRIMARY KEY constraints of the invoices
table. -/
inductive IssueErr where
  | productNotFound (productId : String)
  | insufficientStock (name : String)
  | duplicateKey
deriving DecidableEq

/-- The observable HTTP outcome of POST /api/invoices. -/
inductive PostResp where
  | badRequest (msg : String)
  | created (invoiceId : String) (invoiceNumber : String)
  | serverError (msg : String)
deriving DecidableEq

/-- Whether a response is the 201 success outcome. -/
def PostResp.isCreated : PostResp → Bool
  | .created _ _ => true
  | _ => false

/-- SELECT ... FROM products WHERE id = ?. -/
def findProduct (db : DB) (pid : String) : Option ProductRow :=
  db.products.find? (fun p => p.id == pid)

/-- UPDATE products SET stock_qty = stock_qty - ? WHERE id = ?. -/
def decrementStock (db : DB) (pid : String) (qty : Int) : DB :=
  { db with products := db.products.map fun p =>
      if p.id == pid then { p with stockQty := p.stockQty - qty } else p }

/-- The invoice_items row inserted for one request line (invoices.js lines
146-161): name, quantity, price and lineTotal verbatim from the request, with
`|| 0` defaults on the two percentages. -/
def itemRowOf (invoiceId : String) (item : ReqItem) : InvoiceItemRow :=
  { invoiceId := invoiceId, productId := item.productId,
    productName := item.name, quantity := item.quantity,
    unitPrice := item.price,
    appliedTaxPercent := item.appliedTaxPercent.getD 0,
    appliedDiscountPercent := item.appliedDiscountPercent.getD 0,
    lineTotal := item.lineTotal }

/-- The per-item loop of the issuance transaction (invoices.js lines 129-168):
for each line, read the product row with an exclusive lock, fail if it is
missing or its current stock is below the requested quantity, otherwise insert
the invoice_items row and decrement the stock, then continue with the next
line against the updated state. Each iteration re-reads the stock already
decremented by earlier lines of the same transaction. -/
def processItems (invoiceId : String) : List ReqItem → DB → Except IssueErr DB
  | [], db => .ok db
  | item :: rest, db =>
    match findProduct db item.productId with
    | none => .error (.productNotFound item.productId)
    | some prod =>
      if prod.stockQty < item.quantity then .error (.insufficientStock item.name)
      else
        processItems invoiceId rest
          (decrementStock
            { db with invoiceItems := db.invoiceItems ++ [itemRowOf invoiceId item] }
            item.productId item.quantity)

/-- The invoices row built by the header INSERT (invoices.js lines 108-126):
caller-supplied totals verbatim with 0 defaults, CASH as default payment
method, the server clock as default date. -/
def headerRow (invoiceId invoiceNumber now : String) (req : InvoiceReq) : InvoiceRow :=
  { id := invoiceId, invoiceNumber := invoiceNumber,
    storeId := req.storeId.getD "", date := req.date.getD now,
    subtotal := req.subtotal.getD 0, taxTotal := req.taxTotal.getD 0,
    discountTotal := req.discountTotal.getD 0,
    grandTotal := req.grandTotal.getD 0,
    paymentMethod := req.paymentMethod.getD "CASH", synced := true }

/-- The invoice header INSERT (invoices.js lines 108-126); the PRIMARY KEY and
UNIQUE constraints of the invoices table reject a colliding id or invoice
number with a duplicate-key error. -/
def insertInvoiceRow (db : DB) (invoiceId invoiceNumber now : String)
    (req : InvoiceReq) : Except IssueErr DB :=
  if db.invoices.any (fun inv => inv.id == invoiceId || inv.invoiceNumber == invoiceNumber) then
    .error .duplicateKey
  else
    .ok { db with invoices := db.invoices ++ [headerRow invoiceId invoiceNumber now req] }

/-- How the catch block of the route maps a thrown error to an HTTP response
(invoices.js lines 177-188): messages containing the two business-rule
prefixes become 400, everything else becomes the generic 500. -/
def errResp : IssueErr → PostResp
  | .productNotFound pid => .badRequest ("Product not found: " ++ pid)
  | .insufficientStock name => .badRequest ("Insufficient stock for " ++ name)
  | .duplicateKey => .serverError "Failed to create invoice"

/-- POST /api/invoices (invoices.js lines 83-192). The generated invoiceId and
invoiceNumber and the server clock are parameters, since the route draws them
from randomUUID, Date.now and Math.random. On any thrown error the transaction
is rolled back, so the returned state is the input state; only the fully
validated run commits. -/
def postInvoice (db : DB) (invoiceId invoiceNumber now : String)
    (req : InvoiceReq) : PostResp × DB :=
  if req.storeId.isNone || req.items.isEmpty then
    (.badRequest "Missing required fields", db)
  else
    match insertInvoiceRow db invoiceId invoiceNumber now req with
    | .error e => (errResp e, db)
    | .ok db1 =>
      match processItems invoiceId req.items db1 with
      | .error e => (errResp e, db)
      | .ok db2 => (.created invoiceId invoiceNumber, db2)

/-- The observable outcome of PATCH /api/products/:id/stock. -/
inductive PatchResp where
  | badRequest (msg : String)
  | notFound
  | ok (newStock : Int)
deriving DecidableEq

/-- UPDATE products SET stock_qty = ? WHERE id = ?. -/
def setStock (db : DB) (pid : String) (newStock : Int) : DB :=
  { db with products := db.products.map fun p =>
      if p.id == pid then { p with stockQty := newStock } else p }

/-- PATCH /api/products/:id/stock (products.js lines 100-143): reads the
current stock, refuses a delta that would take it negative, otherwise writes
the new absolute stock value. -/
def patchStock (db : DB) (pid : String) (delta : Option Int) : PatchResp × DB :=
  match delta with
  | none => (.badRequest "Stock delta is required", db)
  | some d =>
    match findProduct db pid with
    | none => (.notFound, db)
    | some prod =>
      let currentStock := prod.stockQty
      let newStock := currentStock + d
      if newStock < 0 then (.badRequest "Insufficient stock", db)
      else (.ok newStock, setStock db pid newStock)

/-- The optional fields of a PUT /api/products/:id body. -/
structure PutBody where
  categoryId : Option String
  name : Option String
  price : Option ℚ
  stockQty : Option Int
  taxOverride : Option ℚ
  sku : Option String
  imageUrl : Option String
  costPrice : Option ℚ
deriving DecidableEq

/-- The observable outcome of PUT /api/products/:id. -/
inductive PutResp where
  | ok
  | notFound
deriving DecidableEq

/-- PUT /api/products/:id (products.js lines 70-97): COALESCE keeps the old
value for absent fields except tax_override, sku and image_url, which are
overwritten unconditionally; only the products table is touched. -/
def putProduct (db : DB) (pid : String) (b : PutBody) : PutResp × DB :=
  if db.products.any (fun p => p.id == pid) then
    (.ok, { db with products := db.products.map fun p =>
      if p.id == pid then
        { p with
            categoryId := b.categoryId.getD p.categoryId,
            name := b.name.getD p.name,
            price := b.price.getD p.price,
            stockQty := b.stockQty.getD p.stockQty,
            taxOverride := b.taxOverride,
            sku := b.sku,
            imageUrl := b.imageUrl,
            costPrice := b.costPrice.getD p.costPrice }
      else p })
  else (.notFound, db)

/-- Stock of a product as read through findProduct; 0 when the row is
missing. -/
def stockOf (db : DB) (pid : String) : Int :=
  ((findProduct db pid).map ProductRow.stockQty).getD 0

/-- Cumulative quantity requested for one product across all line items of a
request. -/
def cumQty (pid : String) (items : List ReqItem) : Int :=
  ((items.filter (fun item => item.productId == pid)).map ReqItem.quantity).sum

/-- A request line that the per-item loop is bound to reject against the given
state: its product row is missing, or holds less stock than the line asks
for. -/
def badItemB (db : DB) (item : ReqItem) : Bool :=
  match findProduct db item.productId with
  | none => true
  | some prod => prod.stockQty < item.quantity

/-! ## Basic lemmas about the server operations -/

lemma find?_map_of_id_eq (f : ProductRow → ProductRow)
    (hf : ∀ p, (f p).id = p.id) (l : List ProductRow) (pid : String) :
    (l.map f).find? (fun p => p.id == pid) =
      (l.find? (fun p => p.id == pid)).map f := by
  induction l with
  | nil => rfl
  | cons a t ih =>
    simp only [List.map_cons, List.find?, hf a]
    rcases Bool.eq_false_or_eq_true (a.id == pid) with h | h <;> simp [h, ih]

lemma map_id_of_id_eq (f : ProductRow → ProductRow)
    (hf : ∀ p, (f p).id = p.id) (l : List ProductRow) :
    (l.map f).map ProductRow.id = l.map ProductRow.id := by
  rw [List.map_map]
  exact List.map_congr_left (fun a _ => hf a)

lemma decrement_id_eq (pid : String) (qty : Int) (p : ProductRow) :
    (if p.id == pid then { p with stockQty := p.stockQty - qty } else p).id = p.id := by
  split <;> rfl

lemma findProduct_decrementStock (db : DB) (pid : String) (qty : Int) (x : String) :
    findProduct (decrementStock db pid qty) x =
      (findProduct db x).map
        (fun p => if p.id == pid then { p with stockQty := p.stockQty - qty } else p) := by
  unfold findProduct decrementStock
  exact find?_map_of_id_eq _ (decrement_id_eq pid qty) db.products x

lemma findProduct_set_items (db : DB) (rows : List InvoiceItemRow) (x : String) :
    findProduct { db with invoiceItems := rows } x = findProduct db x := rfl

lemma findProduct_set_invoices (db : DB) (rows : List InvoiceRow) (x : String) :
    findProduct { db with invoices := rows } x = findProduct db x := rfl

lemma findProduct_id (db : DB) (x : String) {prod : ProductRow}
    (h : findProduct db x = some prod) : prod.id = x := by
  have := List.find?_some h
  simpa using this

lemma findProduct_mem (db : DB) (x : String) {prod : ProductRow}
    (h : findProduct db x = some prod) : prod ∈ db.products :=
  List.mem_of_find?_eq_some h

lemma stockOf_decrement_self (db : DB) (pid : String) (qty : Int)
    {prod : ProductRow} (h : findProduct db pid = some prod) :
    stockOf (decrementStock db pid qty) pid = stockOf db pid - qty := by
  unfold stockOf
  rw [findProduct_decrementStock, h]
  have hid : prod.id = pid := findProduct_id db pid h
  simp [hid]

lemma stockOf_decrement_ne (db : DB) (pid : String) (qty : Int) (x : String)
    (h : x ≠ pid) : stockOf (decrementStock db pid qty) x = stockOf db x := by
  unfold stockOf
  rw [findProduct_decrementStock]
  cases hx : findProduct db x with
  | none => rfl
  | some prod =>
    have hid : prod.id = x := findProduct_id db x hx
    simp [hid, h]

lemma isSome_findProduct_decrement (db : DB) (pid : String) (qty : Int) (x : String) :
    (findProduct (decrementStock db pid qty) x).isSome = (findProduct db x).isSome := by
  rw [findProduct_decrementStock]
  cases findProduct db x <;> rfl

lemma cumQty_cons (pid : String) (item : ReqItem) (rest : List ReqItem) :
    cumQty pid (item :: rest) =
      (if item.productId == pid then item.quantity else 0) + cumQty pid rest := by
  rcases Bool.eq_false_or_eq_true (item.productId == pid) with h | h
  · simp [cumQty, List.filter_cons, h]
  · simp [cumQty, List.filter_cons, h]

/-! ## Lemmas about the per-item transaction loop -/

/-- Whether the transaction body ran to completion. -/
def okB : Except IssueErr DB → Bool
  | .ok _ => true
  | .error _ => false

lemma okB_true {r : Except IssueErr DB} (h : okB r = true) : ∃ db2, r = .ok db2 := by
  cases r with
  | ok db2 => exact ⟨db2, rfl⟩
  | error e => cases h

lemma processItems_cons_none (invoiceId : String) (item : ReqItem)
    (rest : List ReqItem) (db : DB)
    (hfind : findProduct db item.productId = none) :
    processItems invoiceId (item :: rest) db =
      .error (.productNotFound item.productId) := by
  conv_lhs => unfold processItems
  simp only [hfind]

lemma processItems_cons_some (invoiceId : String) (item : ReqItem)
    (rest : List ReqItem) (db : DB) (prod : ProductRow)
    (hfind : findProduct db item.productId = some prod) :
    processItems invoiceId (item :: rest) db =
      if prod.stockQty < item.quantity then .error (.insufficientStock item.name)
      else
        processItems invoiceId rest
          (decrementStock
            { db with invoiceItems := db.invoiceItems ++ [itemRowOf invoiceId item] }
            item.productId item.quantity) := by
  conv_lhs => unfold processItems
  simp only [hfind]

lemma processItems_invoices (invoiceId : String) (items : List ReqItem) :
    ∀ (db db2 : DB), processItems invoiceId items db = .ok db2 →
      db2.invoices = db.invoices := by
  induction items with
  | nil => intro db db2 h; cases h; rfl
  | cons item rest ih =>
    intro db db2 h
    unfold processItems at h
    split at h
    · cases h
    next prod hfind =>
      split at h
      · cases h
      next hs =>
        have hrec := ih _ _ h
        exact hrec

lemma processItems_invoiceItems (invoiceId : String) (items : List ReqItem) :
    ∀ (db db2 : DB), processItems invoiceId items db = .ok db2 →
      db2.invoiceItems = db.invoiceItems ++ items.map (itemRowOf invoiceId) := by
  induction items with
  | nil => intro db db2 h; cases h; simp
  | cons item rest ih =>
    intro db db2 h
    unfold processItems at h
    split at h
    · cases h
    next prod hfind =>
      split at h
      · cases h
      next hs =>
        have := ih _ _ h
        simpa [decrementStock] using this

lemma processItems_product_ids (invoiceId : String) (items : List ReqItem) :
    ∀ (db db2 : DB), processItems invoiceId items db = .ok db2 →
      db2.products.map ProductRow.id = db.products.map ProductRow.id := by
  induction items with
  | nil => intro db db2 h; cases h; rfl
  | cons item rest ih =>
    intro db db2 h
    unfold processItems at h
    split at h
    · cases h
    next prod hfind =>
      split at h
      · cases h
      next hs =>
        rw [ih _ _ h]
        exact map_id_of_id_eq _ (decrement_id_eq item.productId item.quantity) _

lemma processItems_stockOf (invoiceId : String) (items : List ReqItem) :
    ∀ (db db2 : DB), processItems invoiceId items db = .ok db2 →
      ∀ x, stockOf db2 x = stockOf db x - cumQty x items := by
  induction items with
  | nil => intro db db2 h x; cases h; simp [cumQty]
  | cons item rest ih =>
    intro db db2 h x
    unfold processItems at h
    split at h
    · cases h
    next prod hfind =>
      split at h
      · cases h
      next hs =>
        have hrec := ih _ _ h x
        rw [cumQty_cons, hrec]
        by_cases hx : x = item.productId
        · subst hx
          rw [stockOf_decrement_self _ _ _ ((findProduct_set_items db _ _).trans hfind)]
          have hbase : stockOf
              { db with invoiceItems := db.invoiceItems ++ [itemRowOf invoiceId item] }
              item.productId = stockOf db item.productId := rfl
          rw [hbase]
          simp only [beq_self_eq_true, if_true]
          omega
        · rw [stockOf_decrement_ne _ _ _ _ hx]
          have hne : (item.productId == x) = false := by
            simp only [beq_eq_false_iff_ne, ne_eq]
            exact fun hc => hx hc.symm
          rw [hne]
          have hbase : stockOf
              { db with invoiceItems := db.invoiceItems ++ [itemRowOf invoiceId item] }
              x = stockOf db x := rfl
          rw [hbase]
          simp

lemma cumQty_nonneg (pid : String) (items : List ReqItem)
    (hq : ∀ item ∈ items, 0 ≤ item.quantity) : 0 ≤ cumQty pid items := by
  induction items with
  | nil => simp [cumQty]
  | cons item rest ih =>
    rw [cumQty_cons]
    have h1 : 0 ≤ item.quantity := hq item (by simp)
    have h2 : 0 ≤ cumQty pid rest := ih (fun i hi => hq i (List.mem_cons_of_mem _ hi))
    split <;> omega

lemma cumQty_eq_zero (pid : String) (items : List ReqItem)
    (h : ∀ item ∈ items, item.productId ≠ pid) : cumQty pid items = 0 := by
  unfold cumQty
  have : items.filter (fun item => item.productId == pid) = [] := by
    rw [List.filter_eq_nil_iff]
    intro a ha
    simpa using h a ha
  rw [this]
  rfl

/-- A bad line stays bad while the transaction processes other lines with
non-negative quantities: stock only decreases, and missing products stay
missing. -/
lemma badItemB_decrement (db : DB) (pid : String) (qty : Int) (hq : 0 ≤ qty)
    (item : ReqItem) (h : badItemB db item = true) :
    badItemB (decrementStock db pid qty) item = true := by
  unfold badItemB at h ⊢
  rw [findProduct_decrementStock]
  cases hf : findProduct db item.productId with
  | none => rfl
  | some prod =>
    rw [hf] at h
    simp at h
    rcases Bool.eq_false_or_eq_true (prod.id == pid) with hid | hid
    · have hid2 : prod.id = pid := by simpa using hid
      simp [hid2]
      omega
    · have hid2 : prod.id ≠ pid := by simpa using hid
      simpa [hid2] using h

/-- If some line of the request is missing its product or over-asks the stock
recorded in the initial state, and every quantity is non-negative, the
per-item loop throws. -/
lemma processItems_error_of_bad (invoiceId : String) (items : List ReqItem) :
    ∀ db : DB, (∀ item ∈ items, 0 ≤ item.quantity) →
      (∃ item ∈ items, badItemB db item = true) →
      okB (processItems invoiceId items db) = false := by
  induction items with
  | nil => intro db _ hbad; simp at hbad
  | cons item rest ih =>
    intro db hq hbad
    cases hfind : findProduct db item.productId with
    | none =>
      rw [processItems_cons_none invoiceId item rest db hfind]
      rfl
    | some prod =>
      rw [processItems_cons_some invoiceId item rest db prod hfind]
      by_cases hs : prod.stockQty < item.quantity
      · rw [if_pos hs]
        rfl
      · rw [if_neg hs]
        obtain ⟨bitem, hbmem, hbbad⟩ := hbad
        rcases List.mem_cons.mp hbmem with rfl | hbrest
        · exfalso
          unfold badItemB at hbbad
          simp only [hfind, decide_eq_true_eq] at hbbad
          exact hs hbbad
        · apply ih
          · intro i hi
            exact hq i (List.mem_cons_of_mem _ hi)
          · refine ⟨bitem, hbrest, ?_⟩
            have hqi : 0 ≤ item.quantity := hq item (by simp)
            have hstep : badItemB
                { db with invoiceItems := db.invoiceItems ++ [itemRowOf invoiceId item] }
                bitem = true := hbbad
            exact badItemB_decrement _ _ _ hqi _ hstep

lemma insertInvoiceRow_ok (db : DB) (invoiceId invoiceNumber now : String)
    (req : InvoiceReq) {db1 : DB}
    (h : insertInvoiceRow db invoiceId invoiceNumber now req = .ok db1) :
    db1.products = db.products ∧
    db1.invoices = db.invoices ++ [headerRow invoiceId invoiceNumber now req] ∧
    db1.invoiceItems = db.invoiceItems := by
  unfold insertInvoiceRow at h
  split at h
  · cases h
  · cases h
    exact ⟨rfl, rfl, rfl⟩

lemma findProduct_congr {db1 db : DB} (h : db1.products = db.products)
    (x : String) : findProduct db1 x = findProduct db x := by
  unfold findProduct
  rw [h]

lemma stockOf_congr {db1 db : DB} (h : db1.products = db.products)
    (x : String) : stockOf db1 x = stockOf db x := by
  unfold stockOf
  rw [findProduct_congr h]

lemma errResp_not_created (e : IssueErr) : (errResp e).isCreated = false := by
  cases e <;> rfl

/-- Exhaustive shape of a POST /api/invoices run: either some step failed and
the transaction rolled back (the returned state is the input state), or
validation passed, the header insert succeeded, and the per-item loop
committed. -/
lemma postInvoice_cases (db : DB) (invoiceId invoiceNumber now : String)
    (req : InvoiceReq) :
    ((postInvoice db invoiceId invoiceNumber now req).2 = db ∧
      (postInvoice db invoiceId invoiceNumber now req).1.isCreated = false) ∨
    (∃ db1, insertInvoiceRow db invoiceId invoiceNumber now req = .ok db1 ∧
      processItems invoiceId req.items db1 =
        .ok (postInvoice db invoiceId invoiceNumber now req).2 ∧
      (postInvoice db invoiceId invoiceNumber now req).1 =
        .created invoiceId invoiceNumber ∧
      (req.storeId.isNone || req.items.isEmpty) = false) := by
  by_cases hval : (req.storeId.isNone || req.items.isEmpty) = true
  · have hpost : postInvoice db invoiceId invoiceNumber now req =
        (.badRequest "Missing required fields", db) := by
      unfold postInvoice
      rw [if_pos hval]
    rw [hpost]
    exact Or.inl ⟨rfl, rfl⟩
  · cases hins : insertInvoiceRow db invoiceId invoiceNumber now req with
    | error e =>
      have hpost : postInvoice db invoiceId invoiceNumber now req = (errResp e, db) := by
        unfold postInvoice
        rw [if_neg hval]
        simp only [hins]
      rw [hpost]
      exact Or.inl ⟨rfl, errResp_not_created e⟩
    | ok db1 =>
      cases hpi : processItems invoiceId req.items db1 with
      | error e =>
        have hpost : postInvoice db invoiceId invoiceNumber now req = (errResp e, db) := by
          unfold postInvoice
          rw [if_neg hval]
          simp only [hins, hpi]
        rw [hpost]
        exact Or.inl ⟨rfl, errResp_not_created e⟩
      | ok db2 =>
        have hpost : postInvoice db invoiceId invoiceNumber now req =
            (.created invoiceId invoiceNumber, db2) := by
          unfold postInvoice
          rw [if_neg hval]
          simp only [hins, hpi]
        rw [hpost]
        exact Or.inr ⟨db1, rfl, hpi, rfl, Bool.eq_false_iff.mpr hval⟩

/-- A run that is not a 201 leaves the datastore untouched: every error path
rolls the transaction back. -/
lemma postInvoice_not_created_state (db : DB)
    (invoiceId invoiceNumber now : String) (req : InvoiceReq)
    (h : (postInvoice db invoiceId invoiceNumber now req).1.isCreated = false) :
    (postInvoice db invoiceId invoiceNumber now req).2 = db := by
  rcases postInvoice_cases db invoiceId invoiceNumber now req with ⟨hstate, _⟩ | ⟨db1, _, _, hresp, _⟩
  · exact hstate
  · rw [hresp] at h
    cases h

/-! ## Non-negative stock machinery -/

/-- The products table has pairwise-distinct primary keys (the PRIMARY KEY
constraint of the schema). -/
def NodupIds (db : DB) : Prop := (db.products.map ProductRow.id).Nodup

/-- Every product row holds a non-negative stock. -/
def NonnegStock (db : DB) : Prop := ∀ prod ∈ db.products, 0 ≤ prod.stockQty

instance (db : DB) : Decidable (NodupIds db) := by
  unfold NodupIds; infer_instance

instance (db : DB) : Decidable (NonnegStock db) := by
  unfold NonnegStock; infer_instance

lemma nodupIds_congr {db1 db : DB}
    (h : db1.products.map ProductRow.id = db.products.map ProductRow.id)
    (hnd : NodupIds db) : NodupIds db1 := by
  unfold NodupIds at hnd ⊢
  rw [h]
  exact hnd

lemma decrement_ids (db : DB) (pid : String) (qty : Int) :
    (decrementStock db pid qty).products.map ProductRow.id =
      db.products.map ProductRow.id :=
  map_id_of_id_eq _ (decrement_id_eq pid qty) db.products

lemma setStock_id_eq (pid : String) (v : Int) (p : ProductRow) :
    (if p.id == pid then { p with stockQty := v } else p).id = p.id := by
  split <;> rfl

lemma setStock_ids (db : DB) (pid : String) (v : Int) :
    (setStock db pid v).products.map ProductRow.id = db.products.map ProductRow.id :=
  map_id_of_id_eq _ (setStock_id_eq pid v) db.products

lemma nonneg_decrement (db : DB) (pid : String) (qty : Int) {prod : ProductRow}
    (hnd : NodupIds db) (hfind : findProduct db pid = some prod)
    (hs : qty ≤ prod.stockQty) (hnn : NonnegStock db) :
    NonnegStock (decrementStock db pid qty) := by
  intro r hr
  have hr2 : r ∈ db.products.map
      (fun p => if p.id == pid then { p with stockQty := p.stockQty - qty } else p) := hr
  obtain ⟨a, ha, rfl⟩ := List.mem_map.mp hr2
  rcases Bool.eq_false_or_eq_true (a.id == pid) with hid | hid
  · have hida : a.id = pid := by simpa using hid
    have haeq : a = prod :=
      eq_of_mem_of_key_nodup ProductRow.id hnd ha (findProduct_mem db pid hfind)
        (by rw [hida, findProduct_id db pid hfind])
    subst haeq
    simp [hida]
    omega
  · have hida : a.id ≠ pid := by simpa using hid
    simpa [hida] using hnn a ha

lemma nonneg_setStock (db : DB) (pid : String) (v : Int) (hv : 0 ≤ v)
    (hnn : NonnegStock db) : NonnegStock (setStock db pid v) := by
  intro r hr
  have hr2 : r ∈ db.products.map
      (fun p => if p.id == pid then { p with stockQty := v } else p) := hr
  obtain ⟨a, ha, rfl⟩ := List.mem_map.mp hr2
  rcases Bool.eq_false_or_eq_true (a.id == pid) with hid | hid
  · have hida : a.id = pid := by simpa using hid
    simpa [hida] using hv
  · have hida : a.id ≠ pid := by simpa using hid
    simpa [hida] using hnn a ha

lemma processItems_nodup (invoiceId : String) (items : List ReqItem)
    {db db2 : DB} (h : processItems invoiceId items db = .ok db2)
    (hnd : NodupIds db) : NodupIds db2 :=
  nodupIds_congr (processItems_product_ids invoiceId items db db2 h) hnd

lemma processItems_nonneg (invoiceId : String) (items : List ReqItem) :
    ∀ db db2, processItems invoiceId items db = .ok db2 →
      NodupIds db → NonnegStock db → NonnegStock db2 := by
  induction items with
  | nil =>
    intro db db2 h hnd hnn
    cases h
    exact hnn
  | cons item rest ih =>
    intro db db2 h hnd hnn
    unfold processItems at h
    split at h
    · cases h
    next prod hfind =>
      split at h
      · cases h
      next hs =>
        apply ih _ _ h
        · exact nodupIds_congr (decrement_ids _ _ _) hnd
        · exact nonneg_decrement _ _ _ hnd hfind (by omega) hnn

/-- Equation for PATCH with a missing delta. -/
lemma patchStock_no_delta (db : DB) (pid : String) :
    patchStock db pid none = (.badRequest "Stock delta is required", db) := rfl

/-- Equation for PATCH on a missing product. -/
lemma patchStock_notFound (db : DB) (pid : String) (d : Int)
    (hf : findProduct db pid = none) :
    patchStock db pid (some d) = (.notFound, db) := by
  unfold patchStock
  simp only [hf]

/-- Equation for PATCH on an existing product. -/
lemma patchStock_found (db : DB) (pid : String) (d : Int) (prod : ProductRow)
    (hf : findProduct db pid = some prod) :
    patchStock db pid (some d) =
      if prod.stockQty + d < 0 then (.badRequest "Insufficient stock", db)
      else (.ok (prod.stockQty + d), setStock db pid (prod.stockQty + d)) := by
  unfold patchStock
  simp only [hf]

lemma patchStock_nonneg (db : DB) (pid : String) (delta : Option Int)
    (hnn : NonnegStock db) : NonnegStock (patchStock db pid delta).2 := by
  cases delta with
  | none => exact hnn
  | some d =>
    cases hf : findProduct db pid with
    | none =>
      rw [patchStock_notFound db pid d hf]
      exact hnn
    | some prod =>
      rw [patchStock_found db pid d prod hf]
      by_cases hlt : prod.stockQty + d < 0
      · rw [if_pos hlt]
        exact hnn
      · rw [if_neg hlt]
        exact nonneg_setStock db pid _ (by omega) hnn

lemma patchStock_nodup (db : DB) (pid : String) (delta : Option Int)
    (hnd : NodupIds db) : NodupIds (patchStock db pid delta).2 := by
  cases delta with
  | none => exact hnd
  | some d =>
    cases hf : findProduct db pid with
    | none =>
      rw [patchStock_notFound db pid d hf]
      exact hnd
    | some prod =>
      rw [patchStock_found db pid d prod hf]
      by_cases hlt : prod.stockQty + d < 0
      · rw [if_pos hlt]
        exact hnd
      · rw [if_neg hlt]
        exact nodupIds_congr (setStock_ids db pid _) hnd

lemma findProduct_setStock (db : DB) (pid : String) (v : Int) (x : String) :
    findProduct (setStock db pid v) x =
      (findProduct db x).map
        (fun p => if p.id == pid then { p with stockQty := v } else p) := by
  unfold findProduct setStock
  exact find?_map_of_id_eq _ (setStock_id_eq pid v) db.products x

lemma stockOf_setStock_self (db : DB) (pid : String) (v : Int)
    {prod : ProductRow} (h : findProduct db pid = some prod) :
    stockOf (setStock db pid v) pid = v := by
  unfold stockOf
  rw [findProduct_setStock, h]
  have hid : prod.id = pid := findProduct_id db pid h
  simp [hid]

lemma stockOf_setStock_ne (db : DB) (pid : String) (v : Int) (x : String)
    (h : x ≠ pid) : stockOf (setStock db pid v) x = stockOf db x := by
  unfold stockOf
  rw [findProduct_setStock]
  cases hx : findProduct db x with
  | none => rfl
  | some prod =>
    have hid : prod.id = x := findProduct_id db x hx
    simp [hid, h]

/-! ## Success condition of the per-item loop -/

/-- Because each line re-reads the stock already decremented by the earlier
lines of the same transaction, the per-line checks succeed exactly when, for
every product referenced by the request, the cumulative requested quantity
fits the stock recorded at the start of the loop. -/
lemma processItems_ok_iff (invoiceId : String) (items : List ReqItem) :
    ∀ db : DB, (∀ item ∈ items, 0 ≤ item.quantity) →
      (∀ item ∈ items, (findProduct db item.productId).isSome = true) →
      (okB (processItems invoiceId items db) = true ↔
        ∀ item ∈ items, cumQty item.productId items ≤ stockOf db item.productId) := by
  induction items with
  | nil =>
    intro db _ _
    simp [processItems, okB]
  | cons item rest ih =>
    intro db hq hex
    obtain ⟨prod, hfind⟩ : ∃ prod, findProduct db item.productId = some prod :=
      Option.isSome_iff_exists.mp (hex item (by simp))
    have hbeq : (item.productId == item.productId) = true := by simp
    have hstock : stockOf db item.productId = prod.stockQty := by
      unfold stockOf
      rw [hfind]
      rfl
    rw [processItems_cons_some invoiceId item rest db prod hfind]
    by_cases hs : prod.stockQty < item.quantity
    · rw [if_pos hs]
      constructor
      · intro hok
        cases hok
      · intro hall
        exfalso
        have h1 := hall item (by simp)
        rw [cumQty_cons, hstock, if_pos hbeq] at h1
        have h2 : 0 ≤ cumQty item.productId rest :=
          cumQty_nonneg _ _ (fun i hi => hq i (List.mem_cons_of_mem _ hi))
        omega
    · rw [if_neg hs]
      have hq2 : ∀ i ∈ rest, 0 ≤ i.quantity :=
        fun i hi => hq i (List.mem_cons_of_mem _ hi)
      have hex2 : ∀ i ∈ rest,
          (findProduct (decrementStock
            { db with invoiceItems := db.invoiceItems ++ [itemRowOf invoiceId item] }
            item.productId item.quantity) i.productId).isSome = true := by
        intro i hi
        rw [isSome_findProduct_decrement]
        exact hex i (List.mem_cons_of_mem _ hi)
      rw [ih _ hq2 hex2]
      have hstock2 : ∀ x, stockOf (decrementStock
          { db with invoiceItems := db.invoiceItems ++ [itemRowOf invoiceId item] }
          item.productId item.quantity) x =
          stockOf db x - (if item.productId == x then item.quantity else 0) := by
        intro x
        by_cases hx : x = item.productId
        · subst hx
          rw [stockOf_decrement_self _ _ _ ((findProduct_set_items db _ _).trans hfind)]
          rw [if_pos hbeq]
          rfl
        · rw [stockOf_decrement_ne _ _ _ _ hx]
          have hnc : ¬ ((item.productId == x) = true) := by
            intro hc
            exact hx (show item.productId = x by simpa using hc).symm
          rw [if_neg hnc]
          have hbase : stockOf
              { db with invoiceItems := db.invoiceItems ++ [itemRowOf invoiceId item] }
              x = stockOf db x := rfl
          rw [hbase]
          omega
      constructor
      · intro hrest i hi
        rcases List.mem_cons.mp hi with rfl | hi2
        · rw [cumQty_cons, hstock, if_pos hbeq]
          by_cases hocc : ∃ j ∈ rest, j.productId = i.productId
          · obtain ⟨j, hj, hjp⟩ := hocc
            have h3 := hrest j hj
            rw [hstock2 j.productId, hjp] at h3
            rw [if_pos hbeq, hstock] at h3
            omega
          · push_neg at hocc
            have hz : cumQty i.productId rest = 0 := cumQty_eq_zero _ _ hocc
            omega
        · have h3 := hrest i hi2
          rw [hstock2 i.productId] at h3
          rw [cumQty_cons]
          by_cases hip : (item.productId == i.productId) = true
          · rw [if_pos hip] at h3 ⊢
            omega
          · rw [if_neg hip] at h3 ⊢
            omega
      · intro hall i hi
        have h1 := hall i (List.mem_cons_of_mem _ hi)
        rw [hstock2 i.productId]
        rw [cumQty_cons] at h1
        by_cases hip : (item.productId == i.productId) = true
        · rw [if_pos hip] at h1 ⊢
          omega
        · rw [if_neg hip] at h1 ⊢
          omega

/-! ## Sequences of issuance attempts and administrative stock adjustments -/

/-- An operation against the datastore: a POST /api/invoices attempt (with its
generated ids and server clock) or a PATCH /api/products/:id/stock
adjustment. -/
inductive SysOp where
  | issue (invoiceId invoiceNumber now : String) (req : InvoiceReq)
  | adjustStock (productId : String) (delta : Int)

/-- The state left behind by one operation (commit or rollback). -/
def applyOp (db : DB) : SysOp → DB
  | .issue invoiceId invoiceNumber now req =>
      (postInvoice db invoiceId invoiceNumber now req).2
  | .adjustStock pid delta => (patchStock db pid (some delta)).2

/-- The state after a whole sequence of operations. -/
def runOps : DB → List SysOp → DB
  | db, [] => db
  | db, op :: ops => runOps (applyOp db op) ops

/-- Quantity of product p successfully invoiced by one operation: the
cumulative requested quantity when the issuance committed, 0 otherwise. -/
def opInvoiced (db : DB) (p : String) : SysOp → Int
  | .issue invoiceId invoiceNumber now req =>
      if (postInvoice db invoiceId invoiceNumber now req).1.isCreated then
        cumQty p req.items
      else 0
  | .adjustStock _ _ => 0

/-- Administrative stock delta applied to product p by one operation. -/
def opAdminDelta (db : DB) (p : String) : SysOp → Int
  | .issue _ _ _ _ => 0
  | .adjustStock pid delta =>
      if pid = p then
        match (patchStock db pid (some delta)).1 with
        | .ok _ => delta
        | _ => 0
      else 0

/-- Total quantity of product p successfully invoiced along a run. -/
def invoicedQty (p : String) : DB → List SysOp → Int
  | _, [] => 0
  | db, op :: ops => opInvoiced db p op + invoicedQty p (applyOp db op) ops

/-- Net administrative delta applied to product p along a run. -/
def adminDeltaSum (p : String) : DB → List SysOp → Int
  | _, [] => 0
  | db, op :: ops => opAdminDelta db p op + adminDeltaSum p (applyOp db op) ops

/-- Administrative replenishment of product p along a run: only the positive
part of each applied adjustment. -/
def replenishQty (p : String) : DB → List SysOp → Int
  | _, [] => 0
  | db, op :: ops => max (opAdminDelta db p op) 0 + replenishQty p (applyOp db op) ops

lemma postInvoice_stockOf (db : DB) (invoiceId invoiceNumber now : String)
    (req : InvoiceReq) (p : String) :
    stockOf (postInvoice db invoiceId invoiceNumber now req).2 p =
      stockOf db p - opInvoiced db p (.issue invoiceId invoiceNumber now req) := by
  rcases postInvoice_cases db invoiceId invoiceNumber now req with
    ⟨hstate, hresp⟩ | ⟨db1, hins, hpi, hresp, _⟩
  · rw [hstate]
    unfold opInvoiced
    simp [hresp]
  · have h1 := processItems_stockOf invoiceId req.items db1 _ hpi p
    have h2 : stockOf db1 p = stockOf db p :=
      stockOf_congr (insertInvoiceRow_ok db _ _ _ _ hins).1 p
    have h3 : opInvoiced db p (SysOp.issue invoiceId invoiceNumber now req) =
        cumQty p req.items := by
      unfold opInvoiced
      simp [hresp, PostResp.isCreated]
    rw [h1, h2, h3]

lemma postInvoice_nonneg (db : DB) (invoiceId invoiceNumber now : String)
    (req : InvoiceReq) (hnd : NodupIds db) (hnn : NonnegStock db) :
    NonnegStock (postInvoice db invoiceId invoiceNumber now req).2 := by
  rcases postInvoice_cases db invoiceId invoiceNumber now req with
    ⟨hstate, _⟩ | ⟨db1, hins, hpi, _, _⟩
  · rw [hstate]
    exact hnn
  · obtain ⟨hp, _, _⟩ := insertInvoiceRow_ok db _ _ _ _ hins
    exact processItems_nonneg _ _ db1 _ hpi (nodupIds_congr (by rw [hp]) hnd)
      (fun r hr => hnn r (hp ▸ hr))

lemma postInvoice_nodup (db : DB) (invoiceId invoiceNumber now : String)
    (req : InvoiceReq) (hnd : NodupIds db) :
    NodupIds (postInvoice db invoiceId invoiceNumber now req).2 := by
  rcases postInvoice_cases db invoiceId invoiceNumber now req with
    ⟨hstate, _⟩ | ⟨db1, hins, hpi, _, _⟩
  · rw [hstate]
    exact hnd
  · obtain ⟨hp, _, _⟩ := insertInvoiceRow_ok db _ _ _ _ hins
    exact processItems_nodup _ _ hpi (nodupIds_congr (by rw [hp]) hnd)

lemma patchStock_stockOf (db : DB) (pid : String) (d : Int) (p : String) :
    stockOf (patchStock db pid (some d)).2 p =
      stockOf db p + opAdminDelta db p (.adjustStock pid d) := by
  cases hf : findProduct db pid with
  | none =>
    rw [patchStock_notFound db pid d hf]
    simp only [opAdminDelta]
    rw [patchStock_notFound db pid d hf]
    by_cases hp : pid = p
    · rw [if_pos hp]
      simp
    · rw [if_neg hp]
      simp
  | some prod =>
    have hsp : stockOf db pid = prod.stockQty := by
      unfold stockOf
      rw [hf]
      rfl
    rw [patchStock_found db pid d prod hf]
    simp only [opAdminDelta]
    rw [patchStock_found db pid d prod hf]
    by_cases hlt : prod.stockQty + d < 0
    · rw [if_pos hlt]
      simp
    · rw [if_neg hlt]
      by_cases hp : pid = p
      · subst hp
        rw [if_pos rfl]
        have h1 : stockOf
            (PatchResp.ok (prod.stockQty + d), setStock db pid (prod.stockQty + d)).2
            pid = prod.stockQty + d := stockOf_setStock_self db pid _ hf
        rw [h1, hsp]
      · rw [if_neg hp]
        have h2 : stockOf
            (PatchResp.ok (prod.stockQty + d), setStock db pid (prod.stockQty + d)).2
            p = stockOf db p := stockOf_setStock_ne db pid _ p (fun hc => hp hc.symm)
        rw [h2]
        simp

lemma applyOp_stockOf (db : DB) (op : SysOp) (p : String) :
    stockOf (applyOp db op) p =
      stockOf db p + opAdminDelta db p op - opInvoiced db p op := by
  cases op with
  | issue a b c req =>
    have h := postInvoice_stockOf db a b c req p
    show stockOf (postInvoice db a b c req).2 p =
      stockOf db p + 0 - opInvoiced db p (.issue a b c req)
    omega
  | adjustStock pid d =>
    have h := patchStock_stockOf db pid d p
    show stockOf (patchStock db pid (some d)).2 p =
      stockOf db p + opAdminDelta db p (.adjustStock pid d) - 0
    omega

lemma applyOp_nonneg (db : DB) (op : SysOp) (hnd : NodupIds db)
    (hnn : NonnegStock db) : NonnegStock (applyOp db op) := by
  cases op with
  | issue a b c req => exact postInvoice_nonneg db a b c req hnd hnn
  | adjustStock pid d => exact patchStock_nonneg db pid (some d) hnn

lemma applyOp_nodup (db : DB) (op : SysOp) (hnd : NodupIds db) :
    NodupIds (applyOp db op) := by
  cases op with
  | issue a b c req => exact postInvoice_nodup db a b c req hnd
  | adjustStock pid d => exact patchStock_nodup db pid (some d) hnd

lemma runOps_nonneg : ∀ (ops : List SysOp) (db : DB), NodupIds db →
    NonnegStock db → NonnegStock (runOps db ops) := by
  intro ops
  induction ops with
  | nil => intro db _ hnn; exact hnn
  | cons op ops ih =>
    intro db hnd hnn
    exact ih (applyOp db op) (applyOp_nodup db op hnd) (applyOp_nonneg db op hnd hnn)

lemma runOps_stockOf (p : String) : ∀ (ops : List SysOp) (db : DB),
    stockOf (runOps db ops) p =
      stockOf db p + adminDeltaSum p db ops - invoicedQty p db ops := by
  intro ops
  induction ops with
  | nil =>
    intro db
    simp [runOps, adminDeltaSum, invoicedQty]
  | cons op ops ih =>
    intro db
    have h1 : runOps db (op :: ops) = runOps (applyOp db op) ops := rfl
    rw [h1, ih (applyOp db op), applyOp_stockOf]
    simp only [adminDeltaSum, invoicedQty]
    omega

lemma adminDeltaSum_le_replenish (p : String) : ∀ (ops : List SysOp) (db : DB),
    adminDeltaSum p db ops ≤ replenishQty p db ops := by
  intro ops
  induction ops with
  | nil => intro db; simp [adminDeltaSum, replenishQty]
  | cons op ops ih =>
    intro db
    have h1 := ih (applyOp db op)
    have h2 : opAdminDelta db p op ≤ max (opAdminDelta db p op) 0 :=
      le_max_left _ _
    simp only [adminDeltaSum, replenishQty]
    omega

lemma stockOf_nonneg (db : DB) (hnn : NonnegStock db) (p : String) :
    0 ≤ stockOf db p := by
  unfold stockOf
  cases hf : findProduct db p with
  | none => simp
  | some prod => simpa using hnn prod (findProduct_mem db p hf)

/-! ## Cart pricing lemmas and claim theorems C3, C4 -/

lemma foldl_totalsStep (cart : List CartItem) : ∀ acc : ℚ × ℚ × ℚ,
    cart.foldl totalsStep acc =
      (acc.1 + (cart.map lineBase).sum,
       acc.2.1 + (cart.map lineDiscount).sum,
       acc.2.2 + (cart.map lineTax).sum) := by
  induction cart with
  | nil =>
    intro acc
    simp
  | cons item rest ih =>
    intro acc
    rw [List.foldl_cons, ih (totalsStep acc item)]
    simp only [totalsStep, lineBase, lineDiscount, lineTax, List.map_cons,
      List.sum_cons, Prod.mk.injEq]
    refine ⟨by ring, by ring, by ring⟩

lemma pricedLine_updateLine (a : CartItem) (q : Int) (c : Prop) [Decidable c]
    (hpa : pricedLine a) :
    pricedLine (if c then a
      else { a with
              quantity := q,
              lineTotal := unitFinal a.price a.appliedDiscountPercent
                a.appliedTaxPercent * (q : ℚ) }) := by
  split
  · exact hpa
  · apply pricedLine_of_unitFinal
    rfl

lemma pricedLine_map (f : CartItem → CartItem) (cart : List CartItem)
    (hf : ∀ a ∈ cart, pricedLine a → pricedLine (f a))
    (hcart : ∀ a ∈ cart, pricedLine a) :
    ∀ item ∈ cart.map f, pricedLine item := by
  intro item hmem
  obtain ⟨a, ha, rfl⟩ := List.mem_map.mp hmem
  exact hf a ha (hcart a ha)

/-- C4: the four aggregates of the totals useMemo satisfy
grandTotal = subtotal - discountTotal + taxTotal exactly (the grand total is
formed from the very sums it is displayed with), and each aggregate is the
plain sum of its per-line components, with no independent rounding. -/
theorem cartTotals_aggregate_consistency (cart : List CartItem) :
    (cartTotals cart).grandTotal =
      (cartTotals cart).subtotal - (cartTotals cart).discountTotal +
        (cartTotals cart).taxTotal ∧
    (cartTotals cart).subtotal = (cart.map lineBase).sum ∧
    (cartTotals cart).discountTotal = (cart.map lineDiscount).sum ∧
    (cartTotals cart).taxTotal = (cart.map lineTax).sum := by
  unfold cartTotals
  rw [foldl_totalsStep cart (0, 0, 0)]
  refine ⟨rfl, by simp, by simp, by simp⟩

/-- C3: in a cart whose lines are keyed by distinct product ids and whose
stored line totals agree with the specification formula
(unitPrice * quantity * (1 - discount/100)) * (1 + tax/100) within 0.01,
every line produced by addToCart, updateQuantity or updateDiscount again
agrees with that formula within 0.01: the code's per-unit discount-then-tax
computation multiplied by the quantity coincides exactly with the
specification's subtotal-first algorithm over exact arithmetic. -/
theorem cart_ops_lineTotal_spec
    (categories : List Category) (store : Store) (product : Product)
    (products : List Product) (cart : List CartItem)
    (id : String) (delta : Int) (d : ℚ)
    (hnd : (cart.map (fun item => item.id)).Nodup)
    (hcart : ∀ item ∈ cart, pricedLine item) :
    (∀ item ∈ addToCart categories store product cart, pricedLine item) ∧
    (∀ item ∈ updateQuantity products cart id delta, pricedLine item) ∧
    (∀ item ∈ updateDiscount cart id d, pricedLine item) := by
  refine ⟨?_, ?_, ?_⟩
  · intro item hmem
    unfold addToCart at hmem
    split at hmem
    · exact hcart item hmem
    · split at hmem
      next existing hfind =>
        split at hmem
        · exact hcart item hmem
        · obtain ⟨a, ha, rfl⟩ := List.mem_map.mp hmem
          by_cases hid : (a.id == product.id) = true
          · have hex1 : existing ∈ cart := List.mem_of_find?_eq_some hfind
            have hex2 : existing.id = product.id := by
              simpa using List.find?_some hfind
            have haid : a.id = product.id := by simpa using hid
            have haeq : a = existing :=
              eq_of_mem_of_key_nodup (fun item => item.id) hnd ha hex1
                (by show a.id = existing.id; rw [haid, hex2])
            subst haeq
            rw [if_pos hid]
            apply pricedLine_of_unitFinal
            rfl
          · rw [if_neg hid]
            exact hcart a ha
      next hfind =>
        rcases List.mem_append.mp hmem with hin | hnew
        · exact hcart item hin
        · have hitem := List.mem_singleton.mp hnew
          rw [hitem]
          apply pricedLine_of_unitFinal
          simp
  · intro item hmem
    unfold updateQuantity at hmem
    refine pricedLine_map _ cart ?_ hcart item hmem
    intro a ha hpa
    by_cases hid : (a.id == id) = true
    · rw [if_pos hid]
      exact pricedLine_updateLine a _ _ hpa
    · rw [if_neg hid]
      exact hpa
  · intro item hmem
    unfold updateDiscount at hmem
    refine pricedLine_map _ cart ?_ hcart item hmem
    intro a ha hpa
    by_cases hid : (a.id == id) = true
    · rw [if_pos hid]
      apply pricedLine_of_unitFinal
      rfl
    · rw [if_neg hid]
      exact hpa

/-- Witness for C3 at a concrete store, product and empty cart. -/
theorem cart_ops_lineTotal_spec_witness :
    ((([] : List CartItem).map (fun item => item.id)).Nodup ∧
      ∀ item ∈ ([] : List CartItem), pricedLine item) ∧
    ((∀ item ∈ addToCart [] ⟨"s1", "Shop", none⟩
        ⟨"p1", "s1", "c1", "Widget", 5, 3, none⟩ [], pricedLine item) ∧
      (∀ item ∈ updateQuantity [] [] "p1" 1, pricedLine item) ∧
      (∀ item ∈ updateDiscount [] "p1" 10, pricedLine item)) :=
  ⟨⟨by simp, by simp⟩,
    cart_ops_lineTotal_spec [] ⟨"s1", "Shop", none⟩
      ⟨"p1", "s1", "c1", "Widget", 5, 3, none⟩ [] [] "p1" 1 10
      (by simp) (by simp)⟩

/-! ## Concrete sample data for witnesses -/

/-- Sample product row: id p1, stock 5. -/
def sampleProduct : ProductRow :=
  { id := "p1", storeId := "s1", categoryId := "c1", name := "Widget",
    price := 10, stockQty := 5, taxOverride := none, sku := none,
    imageUrl := none, costPrice := 0 }

/-- Sample datastore with one product, no invoices. -/
def sampleDB : DB :=
  { products := [sampleProduct], invoices := [], invoiceItems := [] }

/-- A sample request line for product pid with quantity q. -/
def sampleItem (pid : String) (q : Int) : ReqItem :=
  { productId := pid, name := "Widget", quantity := q, price := 10,
    appliedTaxPercent := none, appliedDiscountPercent := none, lineTotal := 10 }

/-- A sample issuance request for store s1 over the given lines. -/
def sampleReq (items : List ReqItem) : InvoiceReq :=
  { storeId := some "s1", date := none, items := items, subtotal := none,
    taxTotal := none, discountTotal := none, grandTotal := none,
    paymentMethod := none }

/-! ## Claim theorems about the issuance transaction -/

/-- C1: if any line of an issuance request references a missing product or
asks for more than the stock recorded before the request, and every quantity
is at least 1 (the data model's domain for quantities), then the request does
not return 201 and the datastore afterwards is exactly the state from before
the request: the rollback leaves no invoice row, no line items and no stock
change, including for the lines that had sufficient stock. -/
theorem postInvoice_allOrNothing (db : DB)
    (invoiceId invoiceNumber now : String) (req : InvoiceReq)
    (hq : ∀ item ∈ req.items, 1 ≤ item.quantity)
    (hbad : ∃ item ∈ req.items, badItemB db item = true) :
    (postInvoice db invoiceId invoiceNumber now req).1.isCreated = false ∧
    (postInvoice db invoiceId invoiceNumber now req).2 = db := by
  have hfail :
      (postInvoice db invoiceId invoiceNumber now req).1.isCreated = false := by
    rcases postInvoice_cases db invoiceId invoiceNumber now req with
      ⟨_, hresp⟩ | ⟨db1, hins, hpi, hresp, _⟩
    · exact hresp
    · exfalso
      obtain ⟨hp, _, _⟩ := insertInvoiceRow_ok db _ _ _ _ hins
      have hbad1 : ∃ item ∈ req.items, badItemB db1 item = true := by
        obtain ⟨it, hit, hb⟩ := hbad
        refine ⟨it, hit, ?_⟩
        unfold badItemB at hb ⊢
        rw [findProduct_congr hp]
        exact hb
      have herr := processItems_error_of_bad invoiceId req.items db1
        (fun i hi => by have := hq i hi; omega) hbad1
      rw [hpi] at herr
      simp [okB] at herr
  exact ⟨hfail,
    postInvoice_not_created_state db invoiceId invoiceNumber now req hfail⟩

/-- Witness for C1: stock 5, one fine line and one line over-asking with 9. -/
theorem postInvoice_allOrNothing_witness :
    ((∀ item ∈ (sampleReq [sampleItem "p1" 1, sampleItem "p1" 9]).items,
        1 ≤ item.quantity) ∧
      (∃ item ∈ (sampleReq [sampleItem "p1" 1, sampleItem "p1" 9]).items,
        badItemB sampleDB item = true)) ∧
    ((postInvoice sampleDB "i1" "INV-1" "t0"
        (sampleReq [sampleItem "p1" 1, sampleItem "p1" 9])).1.isCreated = false ∧
      (postInvoice sampleDB "i1" "INV-1" "t0"
        (sampleReq [sampleItem "p1" 1, sampleItem "p1" 9])).2 = sampleDB) :=
  ⟨⟨by decide, by decide⟩,
    postInvoice_allOrNothing sampleDB "i1" "INV-1" "t0"
      (sampleReq [sampleItem "p1" 1, sampleItem "p1" 9]) (by decide) (by decide)⟩

/-- C2: from a state whose products have pairwise-distinct primary keys and
non-negative stock, any sequence of issuance attempts and administrative stock
adjustments leaves every product's stockQty non-negative, and the total
quantity successfully invoiced for any product never exceeds its initial stock
plus the administrative replenishment applied along the run. -/
theorem stock_nonneg_and_invoiced_bounded (db : DB) (ops : List SysOp)
    (hnd : NodupIds db) (hnn : NonnegStock db) :
    NonnegStock (runOps db ops) ∧
    ∀ p, invoicedQty p db ops ≤ stockOf db p + replenishQty p db ops := by
  have hfin : NonnegStock (runOps db ops) := runOps_nonneg ops db hnd hnn
  refine ⟨hfin, fun p => ?_⟩
  have hcons := runOps_stockOf p ops db
  have hge := stockOf_nonneg (runOps db ops) hfin p
  have hle := adminDeltaSum_le_replenish p ops db
  omega

/-- Witness for C2: one committed issuance then one replenishment. -/
theorem stock_nonneg_and_invoiced_bounded_witness :
    (NodupIds sampleDB ∧ NonnegStock sampleDB) ∧
    (NonnegStock (runOps sampleDB
        [.issue "i1" "INV-1" "t0" (sampleReq [sampleItem "p1" 2]),
         .adjustStock "p1" 3]) ∧
      ∀ p, invoicedQty p sampleDB
          [.issue "i1" "INV-1" "t0" (sampleReq [sampleItem "p1" 2]),
           .adjustStock "p1" 3] ≤
        stockOf sampleDB p + replenishQty p sampleDB
          [.issue "i1" "INV-1" "t0" (sampleReq [sampleItem "p1" 2]),
           .adjustStock "p1" 3]) :=
  ⟨⟨by decide, by decide⟩,
    stock_nonneg_and_invoiced_bounded sampleDB
      [.issue "i1" "INV-1" "t0" (sampleReq [sampleItem "p1" 2]),
       .adjustStock "p1" 3] (by decide) (by decide)⟩

/-- C5 (evaluation at the failing input): POST /api/invoices performs no
quantity validation, so a request whose single line has quantity -3 against a
product with stock 5 is accepted with 201 and the decrement
stock_qty = stock_qty - (-3) increases the stock to 8; a zero-quantity line
is likewise accepted rather than rejected as invalid input. -/
theorem negative_quantity_accepted :
    (postInvoice sampleDB "i1" "INV-1" "t0"
        (sampleReq [sampleItem "p1" (-3)])).1 = .created "i1" "INV-1" ∧
    stockOf (postInvoice sampleDB "i1" "INV-1" "t0"
        (sampleReq [sampleItem "p1" (-3)])).2 "p1" = 8 ∧
    (postInvoice sampleDB "i1" "INV-1" "t0"
        (sampleReq [sampleItem "p1" 0])).1 = .created "i1" "INV-1" := by
  decide

lemma putProduct_frame (db : DB) (pid : String) (b : PutBody) :
    (putProduct db pid b).2.invoices = db.invoices ∧
    (putProduct db pid b).2.invoiceItems = db.invoiceItems := by
  unfold putProduct
  split
  · exact ⟨rfl, rfl⟩
  · exact ⟨rfl, rfl⟩

/-- C9: after a successful issuance, updating the referenced product's catalog
row (price, name, tax override, ...) through PUT /api/products/:id touches only
the products table: the persisted invoices and invoice_items rows — the frozen
copies of name, unit price, applied percentages and line totals — are exactly
as they were before the update. -/
theorem invoice_immutable_under_product_update (db : DB)
    (invoiceId invoiceNumber now : String) (req : InvoiceReq) (db2 : DB)
    (h : postInvoice db invoiceId invoiceNumber now req =
      (.created invoiceId invoiceNumber, db2))
    (pid : String) (b : PutBody) :
    (putProduct db2 pid b).2.invoices = db2.invoices ∧
    (putProduct db2 pid b).2.invoiceItems = db2.invoiceItems :=
  putProduct_frame db2 pid b

/-- Witness for C9: issue an invoice for p1, then change p1's price and name. -/
theorem invoice_immutable_under_product_update_witness :
    (postInvoice sampleDB "i1" "INV-1" "t0" (sampleReq [sampleItem "p1" 2]) =
      (.created "i1" "INV-1",
        (postInvoice sampleDB "i1" "INV-1" "t0"
          (sampleReq [sampleItem "p1" 2])).2)) ∧
    ((putProduct (postInvoice sampleDB "i1" "INV-1" "t0"
          (sampleReq [sampleItem "p1" 2])).2 "p1"
        ⟨none, some "Gadget", some 99, none, some 12, none, none, none⟩).2.invoices =
        (postInvoice sampleDB "i1" "INV-1" "t0"
          (sampleReq [sampleItem "p1" 2])).2.invoices ∧
      (putProduct (postInvoice sampleDB "i1" "INV-1" "t0"
          (sampleReq [sampleItem "p1" 2])).2 "p1"
        ⟨none, some "Gadget", some 99, none, some 12, none, none, none⟩).2.invoiceItems =
        (postInvoice sampleDB "i1" "INV-1" "t0"
          (sampleReq [sampleItem "p1" 2])).2.invoiceItems) :=
  ⟨Prod.ext (by decide) rfl,
    invoice_immutable_under_product_update sampleDB "i1" "INV-1" "t0"
      (sampleReq [sampleItem "p1" 2]) _ (Prod.ext (by decide) rfl) "p1"
      ⟨none, some "Gadget", some 99, none, some 12, none, none, none⟩⟩

/-- C10: a 201 run appends exactly one invoices row holding the
caller-supplied subtotal, taxTotal, discountTotal and grandTotal verbatim
(0 when absent), CASH when paymentMethod is absent and the server clock when
date is absent, and appends the request lines verbatim as invoice_items rows
with 0 substituted for absent percentages; the header totals come from the
request alone, never recomputed from the line items. -/
theorem persisted_header_and_items_verbatim (db : DB)
    (invoiceId invoiceNumber now : String) (req : InvoiceReq) (db2 : DB)
    (h : postInvoice db invoiceId invoiceNumber now req =
      (.created invoiceId invoiceNumber, db2)) :
    db2.invoices = db.invoices ++ [headerRow invoiceId invoiceNumber now req] ∧
    db2.invoiceItems = db.invoiceItems ++ req.items.map (itemRowOf invoiceId) := by
  rcases postInvoice_cases db invoiceId invoiceNumber now req with
    ⟨_, hresp⟩ | ⟨db1, hins, hpi, hresp, _⟩
  · rw [h] at hresp
    cases hresp
  · have hdb2 : (postInvoice db invoiceId invoiceNumber now req).2 = db2 := by
      rw [h]
    rw [hdb2] at hpi
    obtain ⟨_, hiv, hii⟩ := insertInvoiceRow_ok db _ _ _ _ hins
    constructor
    · rw [processItems_invoices invoiceId req.items db1 db2 hpi, hiv]
    · rw [processItems_invoiceItems invoiceId req.items db1 db2 hpi, hii]

/-- Witness for C10 at a concrete accepted request. -/
theorem persisted_header_and_items_verbatim_witness :
    (postInvoice sampleDB "i1" "INV-1" "t0" (sampleReq [sampleItem "p1" 2]) =
      (.created "i1" "INV-1",
        (postInvoice sampleDB "i1" "INV-1" "t0"
          (sampleReq [sampleItem "p1" 2])).2)) ∧
    ((postInvoice sampleDB "i1" "INV-1" "t0"
        (sampleReq [sampleItem "p1" 2])).2.invoices =
        sampleDB.invoices ++
          [headerRow "i1" "INV-1" "t0" (sampleReq [sampleItem "p1" 2])] ∧
      (postInvoice sampleDB "i1" "INV-1" "t0"
        (sampleReq [sampleItem "p1" 2])).2.invoiceItems =
        sampleDB.invoiceItems ++
          (sampleReq [sampleItem "p1" 2]).items.map (itemRowOf "i1")) :=
  ⟨Prod.ext (by decide) rfl,
    persisted_header_and_items_verbatim sampleDB "i1" "INV-1" "t0"
      (sampleReq [sampleItem "p1" 2]) _ (Prod.ext (by decide) rfl)⟩

/-- Sample datastore with a single unit of stock for p1. -/
def oneUnitDB : DB :=
  { products := [{ sampleProduct with stockQty := 1 }], invoices := [],
    invoiceItems := [] }

/-- C6: for a request whose lines all reference existing products with
non-negative quantities, issued with a fresh invoice id and number and a
valid store, the request returns 201 exactly when, for every product it
references, the cumulative requested quantity across all of its lines does
not exceed that product's available stock: each line re-reads the stock
already decremented by the earlier lines of the same transaction, so the
per-line checks enforce the cumulative bound and cannot collectively
over-sell (two lines of 1 against stock 1 fail). -/
theorem postInvoice_cumulative_stock_check (db : DB)
    (invoiceId invoiceNumber now : String) (req : InvoiceReq)
    (hstore : req.storeId.isSome = true)
    (hitems : req.items.isEmpty = false)
    (hfresh : (db.invoices.any fun inv =>
      inv.id == invoiceId || inv.invoiceNumber == invoiceNumber) = false)
    (hq : ∀ item ∈ req.items, 0 ≤ item.quantity)
    (hex : ∀ item ∈ req.items, (findProduct db item.productId).isSome = true) :
    ((postInvoice db invoiceId invoiceNumber now req).1 =
        .created invoiceId invoiceNumber) ↔
      ∀ item ∈ req.items,
        cumQty item.productId req.items ≤ stockOf db item.productId := by
  have hnone : req.storeId.isNone = false := by
    cases hso : req.storeId with
    | none => rw [hso] at hstore; cases hstore
    | some s => rfl
  have hvalneg : ¬((req.storeId.isNone || req.items.isEmpty) = true) := by
    rw [hnone, hitems]
    simp
  have hins : insertInvoiceRow db invoiceId invoiceNumber now req =
      .ok { db with invoices :=
        db.invoices ++ [headerRow invoiceId invoiceNumber now req] } := by
    unfold insertInvoiceRow
    rw [if_neg (by rw [hfresh]; simp)]
  have hp1 : ({ db with invoices :=
      db.invoices ++ [headerRow invoiceId invoiceNumber now req] } : DB).products =
      db.products := rfl
  constructor
  · intro hcre
    rcases postInvoice_cases db invoiceId invoiceNumber now req with
      ⟨_, hresp⟩ | ⟨db1, hinsx, hpi, hresp, _⟩
    · rw [hcre] at hresp
      cases hresp
    · have hok : okB (processItems invoiceId req.items db1) = true := by
        rw [hpi]
        rfl
      obtain ⟨hp, _, _⟩ := insertInvoiceRow_ok db _ _ _ _ hinsx
      have hex1 : ∀ item ∈ req.items,
          (findProduct db1 item.productId).isSome = true := by
        intro i hi
        rw [findProduct_congr hp]
        exact hex i hi
      have hiff := (processItems_ok_iff invoiceId req.items db1 hq hex1).mp hok
      intro i hi
      have h2 := hiff i hi
      rwa [stockOf_congr hp] at h2
  · intro hall
    have hex1 : ∀ item ∈ req.items,
        (findProduct { db with invoices :=
          db.invoices ++ [headerRow invoiceId invoiceNumber now req] }
          item.productId).isSome = true := by
      intro i hi
      rw [findProduct_congr hp1]
      exact hex i hi
    have harg : ∀ item ∈ req.items,
        cumQty item.productId req.items ≤
          stockOf ({ db with invoices :=
            db.invoices ++ [headerRow invoiceId invoiceNumber now req] } : DB)
            item.productId := by
      intro i hi
      rw [stockOf_congr hp1]
      exact hall i hi
    have hok := (processItems_ok_iff invoiceId req.items _ hq hex1).mpr harg
    obtain ⟨db2, hpi⟩ := okB_true hok
    unfold postInvoice
    rw [if_neg hvalneg]
    simp only [hins, hpi]

/-- Witness for C6: the defensive double-line case, two lines each asking one
unit of a product whose stock is 1; the cumulative bound fails, so the
request is not a 201. -/
theorem postInvoice_cumulative_stock_check_witness :
    (((sampleReq [sampleItem "p1" 1, sampleItem "p1" 1]).storeId.isSome = true) ∧
      ((sampleReq [sampleItem "p1" 1, sampleItem "p1" 1]).items.isEmpty = false) ∧
      ((oneUnitDB.invoices.any fun inv =>
        inv.id == "i1" || inv.invoiceNumber == "INV-1") = false) ∧
      (∀ item ∈ (sampleReq [sampleItem "p1" 1, sampleItem "p1" 1]).items,
        0 ≤ item.quantity) ∧
      (∀ item ∈ (sampleReq [sampleItem "p1" 1, sampleItem "p1" 1]).items,
        (findProduct oneUnitDB item.productId).isSome = true)) ∧
    (((postInvoice oneUnitDB "i1" "INV-1" "t0"
        (sampleReq [sampleItem "p1" 1, sampleItem "p1" 1])).1 =
          .created "i1" "INV-1") ↔
      ∀ item ∈ (sampleReq [sampleItem "p1" 1, sampleItem "p1" 1]).items,
        cumQty item.productId (sampleReq [sampleItem "p1" 1, sampleItem "p1" 1]).items ≤
          stockOf oneUnitDB item.productId) :=
  ⟨⟨by decide, by decide, by decide, by decide, by decide⟩,
    postInvoice_cumulative_stock_check oneUnitDB "i1" "INV-1" "t0"
      (sampleReq [sampleItem "p1" 1, sampleItem "p1" 1])
      (by decide) (by decide) (by decide) (by decide) (by decide)⟩

/-- C7: two issuance requests, each asking for the single remaining unit of
the same product, executed one after the other — the row lock taken by
SELECT ... FOR UPDATE serialises two concurrent transactions touching the
same product row into exactly this sequential shape, in one of the two
orders, and instantiating the two requests either way covers both orders.
The first request returns 201 and leaves stock 0; the second fails with the
InsufficientStock message and leaves the datastore exactly as the first
commit left it. -/
theorem last_unit_race (db : DB) (pid : String) (prod : ProductRow)
    (req1 req2 : InvoiceReq) (it1 it2 : ReqItem)
    (id1 num1 now1 id2 num2 now2 : String)
    (hfind : findProduct db pid = some prod) (hstk : prod.stockQty = 1)
    (h1s : req1.storeId.isSome = true) (h1i : req1.items = [it1])
    (h1p : it1.productId = pid) (h1q : it1.quantity = 1)
    (h2s : req2.storeId.isSome = true) (h2i : req2.items = [it2])
    (h2p : it2.productId = pid) (h2q : it2.quantity = 1)
    (hfresh1 : (db.invoices.any fun inv =>
      inv.id == id1 || inv.invoiceNumber == num1) = false)
    (hfresh2 : (db.invoices.any fun inv =>
      inv.id == id2 || inv.invoiceNumber == num2) = false)
    (hid : (id1 == id2) = false) (hnum : (num1 == num2) = false) :
    (postInvoice db id1 num1 now1 req1).1 = .created id1 num1 ∧
    stockOf (postInvoice db id1 num1 now1 req1).2 pid = 0 ∧
    (postInvoice (postInvoice db id1 num1 now1 req1).2 id2 num2 now2 req2).1 =
      .badRequest ("Insufficient stock for " ++ it2.name) ∧
    (postInvoice (postInvoice db id1 num1 now1 req1).2 id2 num2 now2 req2).2 =
      (postInvoice db id1 num1 now1 req1).2 := by
  have h1none : req1.storeId.isNone = false := by
    cases hso : req1.storeId with
    | none => rw [hso] at h1s; cases h1s
    | some s => rfl
  have h2none : req2.storeId.isNone = false := by
    cases hso : req2.storeId with
    | none => rw [hso] at h2s; cases h2s
    | some s => rfl
  have hval1 : ¬((req1.storeId.isNone || req1.items.isEmpty) = true) := by
    rw [h1none, h1i]
    simp
  have hval2 : ¬((req2.storeId.isNone || req2.items.isEmpty) = true) := by
    rw [h2none, h2i]
    simp
  have hins1 : insertInvoiceRow db id1 num1 now1 req1 =
      .ok { db with invoices := db.invoices ++ [headerRow id1 num1 now1 req1] } := by
    unfold insertInvoiceRow
    rw [if_neg (by rw [hfresh1]; simp)]
  have hfindA : findProduct
      { db with invoices := db.invoices ++ [headerRow id1 num1 now1 req1] }
      it1.productId = some prod := by
    show findProduct db it1.productId = some prod
    rw [h1p]
    exact hfind
  have hpi1 : processItems id1 req1.items
      { db with invoices := db.invoices ++ [headerRow id1 num1 now1 req1] } =
      .ok (decrementStock
        { db with
            invoices := db.invoices ++ [headerRow id1 num1 now1 req1],
            invoiceItems := db.invoiceItems ++ [itemRowOf id1 it1] }
        it1.productId it1.quantity) := by
    rw [h1i, processItems_cons_some id1 it1 []
      { db with invoices := db.invoices ++ [headerRow id1 num1 now1 req1] }
      prod hfindA]
    rw [if_neg (by rw [hstk, h1q]; omega)]
    rfl
  have hpost1 : postInvoice db id1 num1 now1 req1 =
      (.created id1 num1, decrementStock
        { db with
            invoices := db.invoices ++ [headerRow id1 num1 now1 req1],
            invoiceItems := db.invoiceItems ++ [itemRowOf id1 it1] }
        it1.productId it1.quantity) := by
    unfold postInvoice
    rw [if_neg hval1]
    simp only [hins1, hpi1]
  have hfindI : findProduct
      { db with
          invoices := db.invoices ++ [headerRow id1 num1 now1 req1],
          invoiceItems := db.invoiceItems ++ [itemRowOf id1 it1] }
      it1.productId = some prod := by
    show findProduct db it1.productId = some prod
    rw [h1p]
    exact hfind
  have hsd : stockOf db it1.productId = 1 := by
    unfold stockOf
    rw [h1p, hfind]
    simp [hstk]
  have hs0 : stockOf (decrementStock
      { db with
          invoices := db.invoices ++ [headerRow id1 num1 now1 req1],
          invoiceItems := db.invoiceItems ++ [itemRowOf id1 it1] }
      it1.productId it1.quantity) pid = 0 := by
    rw [← h1p]
    rw [stockOf_decrement_self _ _ _ hfindI]
    have hbase : stockOf
        { db with
            invoices := db.invoices ++ [headerRow id1 num1 now1 req1],
            invoiceItems := db.invoiceItems ++ [itemRowOf id1 it1] }
        it1.productId = stockOf db it1.productId := rfl
    rw [hbase, hsd, h1q]
    decide
  have hfindB : findProduct (decrementStock
      { db with
          invoices := db.invoices ++ [headerRow id1 num1 now1 req1],
          invoiceItems := db.invoiceItems ++ [itemRowOf id1 it1] }
      it1.productId it1.quantity) it2.productId =
      some { prod with stockQty := prod.stockQty - it1.quantity } := by
    rw [findProduct_decrementStock]
    have hf2 : findProduct
        { db with
            invoices := db.invoices ++ [headerRow id1 num1 now1 req1],
            invoiceItems := db.invoiceItems ++ [itemRowOf id1 it1] }
        it2.productId = some prod := by
      show findProduct db it2.productId = some prod
      rw [h2p]
      exact hfind
    rw [hf2]
    have hpp : prod.id = it1.productId := by
      have hpid := findProduct_id db pid hfind
      rw [hpid, h1p]
    simp [hpp]
  have hfreshB : ((decrementStock
      { db with
          invoices := db.invoices ++ [headerRow id1 num1 now1 req1],
          invoiceItems := db.invoiceItems ++ [itemRowOf id1 it1] }
      it1.productId it1.quantity).invoices.any fun inv =>
      inv.id == id2 || inv.invoiceNumber == num2) = false := by
    show ((db.invoices ++ [headerRow id1 num1 now1 req1]).any fun inv =>
      inv.id == id2 || inv.invoiceNumber == num2) = false
    rw [List.any_append, hfresh2]
    simp [headerRow, hid, hnum]
  have hins2 : insertInvoiceRow (decrementStock
      { db with
          invoices := db.invoices ++ [headerRow id1 num1 now1 req1],
          invoiceItems := db.invoiceItems ++ [itemRowOf id1 it1] }
      it1.productId it1.quantity) id2 num2 now2 req2 =
      .ok { (decrementStock
        { db with
            invoices := db.invoices ++ [headerRow id1 num1 now1 req1],
            invoiceItems := db.invoiceItems ++ [itemRowOf id1 it1] }
        it1.productId it1.quantity) with
          invoices := (decrementStock
            { db with
                invoices := db.invoices ++ [headerRow id1 num1 now1 req1],
                invoiceItems := db.invoiceItems ++ [itemRowOf id1 it1] }
            it1.productId it1.quantity).invoices ++
            [headerRow id2 num2 now2 req2] } := by
    unfold insertInvoiceRow
    rw [if_neg (by rw [hfreshB]; simp)]
  have hfindC : findProduct
      { (decrementStock
        { db with
            invoices := db.invoices ++ [headerRow id1 num1 now1 req1],
            invoiceItems := db.invoiceItems ++ [itemRowOf id1 it1] }
        it1.productId it1.quantity) with
          invoices := (decrementStock
            { db with
                invoices := db.invoices ++ [headerRow id1 num1 now1 req1],
                invoiceItems := db.invoiceItems ++ [itemRowOf id1 it1] }
            it1.productId it1.quantity).invoices ++
            [headerRow id2 num2 now2 req2] }
      it2.productId = some { prod with stockQty := prod.stockQty - it1.quantity } :=
    hfindB
  have hpi2 : processItems id2 req2.items
      { (decrementStock
        { db with
            invoices := db.invoices ++ [headerRow id1 num1 now1 req1],
            invoiceItems := db.invoiceItems ++ [itemRowOf id1 it1] }
        it1.productId it1.quantity) with
          invoices := (decrementStock
            { db with
                invoices := db.invoices ++ [headerRow id1 num1 now1 req1],
                invoiceItems := db.invoiceItems ++ [itemRowOf id1 it1] }
            it1.productId it1.quantity).invoices ++
            [headerRow id2 num2 now2 req2] } =
      .error (.insufficientStock it2.name) := by
    rw [h2i, processItems_cons_some id2 it2 [] _ _ hfindC]
    rw [if_pos (show ({ prod with stockQty := prod.stockQty - it1.quantity} : ProductRow).stockQty < it2.quantity by
      show prod.stockQty - it1.quantity < it2.quantity
      rw [hstk, h1q, h2q]
      omega)]
  have hpost2 : postInvoice (decrementStock
      { db with
          invoices := db.invoices ++ [headerRow id1 num1 now1 req1],
          invoiceItems := db.invoiceItems ++ [itemRowOf id1 it1] }
      it1.productId it1.quantity) id2 num2 now2 req2 =
      (.badRequest ("Insufficient stock for " ++ it2.name), decrementStock
        { db with
            invoices := db.invoices ++ [headerRow id1 num1 now1 req1],
            invoiceItems := db.invoiceItems ++ [itemRowOf id1 it1] }
        it1.productId it1.quantity) := by
    unfold postInvoice
    rw [if_neg hval2]
    simp only [hins2, hpi2]
    rfl
  refine ⟨?_, ?_, ?_, ?_⟩
  · rw [hpost1]
  · simp only [hpost1]
    exact hs0
  · simp only [hpost1]
    rw [hpost2]
  · simp only [hpost1]
    rw [hpost2]

/-- Witness for C7: stock 1, both requests ask for 1 unit of p1. -/
theorem last_unit_race_witness :
    (findProduct oneUnitDB "p1" = some { sampleProduct with stockQty := 1 } ∧
      ({ sampleProduct with stockQty := 1 } : ProductRow).stockQty = 1 ∧
      (sampleReq [sampleItem "p1" 1]).storeId.isSome = true ∧
      (sampleReq [sampleItem "p1" 1]).items = [sampleItem "p1" 1] ∧
      (sampleItem "p1" 1).productId = "p1" ∧
      (sampleItem "p1" 1).quantity = 1 ∧
      (oneUnitDB.invoices.any fun inv =>
        inv.id == "i1" || inv.invoiceNumber == "INV-1") = false ∧
      (oneUnitDB.invoices.any fun inv =>
        inv.id == "i2" || inv.invoiceNumber == "INV-2") = false ∧
      (("i1" : String) == "i2") = false ∧
      (("INV-1" : String) == "INV-2") = false) ∧
    ((postInvoice oneUnitDB "i1" "INV-1" "t1"
        (sampleReq [sampleItem "p1" 1])).1 = .created "i1" "INV-1" ∧
      stockOf (postInvoice oneUnitDB "i1" "INV-1" "t1"
        (sampleReq [sampleItem "p1" 1])).2 "p1" = 0 ∧
      (postInvoice (postInvoice oneUnitDB "i1" "INV-1" "t1"
          (sampleReq [sampleItem "p1" 1])).2 "i2" "INV-2" "t2"
        (sampleReq [sampleItem "p1" 1])).1 =
        .badRequest ("Insufficient stock for " ++ (sampleItem "p1" 1).name) ∧
      (postInvoice (postInvoice oneUnitDB "i1" "INV-1" "t1"
          (sampleReq [sampleItem "p1" 1])).2 "i2" "INV-2" "t2"
        (sampleReq [sampleItem "p1" 1])).2 =
        (postInvoice oneUnitDB "i1" "INV-1" "t1"
          (sampleReq [sampleItem "p1" 1])).2) :=
  ⟨⟨by decide, by decide, by decide, by decide, by decide, by decide,
    by decide, by decide, by decide, by decide⟩,
    last_unit_race oneUnitDB "p1" { sampleProduct with stockQty := 1 }
      (sampleReq [sampleItem "p1" 1]) (sampleReq [sampleItem "p1" 1])
      (sampleItem "p1" 1) (sampleItem "p1" 1)
      "i1" "INV-1" "t1" "i2" "INV-2" "t2"
      (by decide) (by decide) (by decide) (by decide) (by decide) (by decide)
      (by decide) (by decide) (by decide) (by decide) (by decide) (by decide)
      (by decide) (by decide)⟩

/-- Sample datastore that already holds an invoice numbered INV-1. -/
def c8db : DB :=
  { products := [sampleProduct],
    invoices := [{ id := "i0", invoiceNumber := "INV-1", storeId := "s1",
                   date := "t0", subtotal := 0, taxTotal := 0,
                   discountTotal := 0, grandTotal := 0,
                   paymentMethod := "CASH", synced := true }],
    invoiceItems := [] }

/-- C8 counterexample: with invoice number INV-1 already taken and a request
that would otherwise succeed, generating INV-1 again makes the run end in the
generic 500 "Failed to create invoice" with the transaction rolled back — the
route does not regenerate the number and retry, although the same request
issued with the fresh number INV-2 succeeds immediately. -/
theorem collision_no_retry_counterexample :
    (postInvoice c8db "i1" "INV-1" "t1" (sampleReq [sampleItem "p1" 1])).1 =
      .serverError "Failed to create invoice" ∧
    (postInvoice c8db "i1" "INV-1" "t1" (sampleReq [sampleItem "p1" 1])).2 = c8db ∧
    (postInvoice c8db "i1" "INV-2" "t1" (sampleReq [sampleItem "p1" 1])).1 =
      .created "i1" "INV-2" := by
  decide

/-- C8 amended: a collision of the generated invoice number with a persisted
one makes the header INSERT fail on the UNIQUE constraint; the transaction
rolls back, the caller gets the generic 500 "Failed to create invoice", and
no retry with a regenerated number takes place. Uniqueness itself is
preserved: if the stored invoice numbers are pairwise distinct before the
request, they are pairwise distinct after it. -/
theorem collision_rolls_back_uniqueness_preserved (db : DB)
    (invoiceId invoiceNumber now : String) (req : InvoiceReq)
    (hnd : (db.invoices.map InvoiceRow.invoiceNumber).Nodup) :
    ((postInvoice db invoiceId invoiceNumber now req).2.invoices.map
      InvoiceRow.invoiceNumber).Nodup ∧
    ((req.storeId.isNone || req.items.isEmpty) = false →
      (∃ inv ∈ db.invoices, inv.invoiceNumber = invoiceNumber) →
      (postInvoice db invoiceId invoiceNumber now req).1 =
        .serverError "Failed to create invoice" ∧
      (postInvoice db invoiceId invoiceNumber now req).2 = db) := by
  constructor
  · rcases postInvoice_cases db invoiceId invoiceNumber now req with
      ⟨hstate, _⟩ | ⟨db1, hins, hpi, _, _⟩
    · rw [hstate]
      exact hnd
    · have hany : (db.invoices.any fun inv =>
          inv.id == invoiceId || inv.invoiceNumber == invoiceNumber) = false := by
        by_cases hc : (db.invoices.any fun inv =>
            inv.id == invoiceId || inv.invoiceNumber == invoiceNumber) = true
        · unfold insertInvoiceRow at hins
          rw [if_pos hc] at hins
          cases hins
        · exact Bool.eq_false_iff.mpr hc
      have hnotin : invoiceNumber ∉ db.invoices.map InvoiceRow.invoiceNumber := by
        intro hmem
        obtain ⟨inv, hinv, heq⟩ := List.mem_map.mp hmem
        have hc : (db.invoices.any fun inv =>
            inv.id == invoiceId || inv.invoiceNumber == invoiceNumber) = true := by
          rw [List.any_eq_true]
          exact ⟨inv, hinv, by simp [heq]⟩
        rw [hany] at hc
        cases hc
      obtain ⟨_, hiv, _⟩ := insertInvoiceRow_ok db _ _ _ _ hins
      have hfi := processItems_invoices invoiceId req.items db1 _ hpi
      rw [hfi, hiv, List.map_append]
      refine List.Nodup.append hnd (by simp) ?_
      intro x hx hx2
      have hxeq : x = invoiceNumber := by simpa [headerRow] using hx2
      subst hxeq
      exact hnotin hx
  · intro hval hcol
    have hany : (db.invoices.any fun inv =>
        inv.id == invoiceId || inv.invoiceNumber == invoiceNumber) = true := by
      rw [List.any_eq_true]
      obtain ⟨inv, hinv, heq⟩ := hcol
      exact ⟨inv, hinv, by simp [heq]⟩
    have hins : insertInvoiceRow db invoiceId invoiceNumber now req =
        .error .duplicateKey := by
      unfold insertInvoiceRow
      rw [if_pos hany]
    have hpost : postInvoice db invoiceId invoiceNumber now req =
        (.serverError "Failed to create invoice", db) := by
      unfold postInvoice
      rw [if_neg (by rw [hval]; simp)]
      simp only [hins]
      rfl
    rw [hpost]
    exact ⟨rfl, rfl⟩

/-- Witness for the amended C8 at a concrete colliding request. -/
theorem collision_rolls_back_uniqueness_preserved_witness :
    ((c8db.invoices.map InvoiceRow.invoiceNumber).Nodup ∧
      ((sampleReq [sampleItem "p1" 1]).storeId.isNone ||
        (sampleReq [sampleItem "p1" 1]).items.isEmpty) = false ∧
      (∃ inv ∈ c8db.invoices, inv.invoiceNumber = "INV-1")) ∧
    (((postInvoice c8db "i1" "INV-1" "t1"
        (sampleReq [sampleItem "p1" 1])).2.invoices.map
        InvoiceRow.invoiceNumber).Nodup ∧
      ((postInvoice c8db "i1" "INV-1" "t1" (sampleReq [sampleItem "p1" 1])).1 =
          .serverError "Failed to create invoice" ∧
        (postInvoice c8db "i1" "INV-1" "t1"
          (sampleReq [sampleItem "p1" 1])).2 = c8db)) :=
  ⟨⟨by decide, by decide, by decide⟩,
    (collision_rolls_back_uniqueness_preserved c8db "i1" "INV-1" "t1"
      (sampleReq [sampleItem "p1" 1]) (by decide)).1,
    (collision_rolls_back_uniqueness_preserved c8db "i1" "INV-1" "t1"
      (sampleReq [sampleItem "p1" 1]) (by decide)).2 (by decide) (by decide)⟩

end PosSystem
